import Mathlib

/-!
Verification of the ModuleVault build-and-cache pipeline.

The definitions below are a shallow embedding of the JavaScript sources:

* `postDownload` embeds the `router.post('/download')` handler of the
  executables router (validation, cache lookup by `{name, repositoryManager
  [, version]}`, download-count increment on a hit, resolve / build / persist
  on a miss or a stale record).
* `buildExecutableRun` embeds `BuildService.buildExecutable` (workspace
  directory naming, artifact file naming via
  `fileUtils.generateUniqueFileName`, `getFileSize` on the final path, and the
  `finally` cleanup of the workspace).
* `selectEntryPoint` embeds the entry-point selection of
  `BuildService.createNpmExecutable` (the `bin` / `main` logic).

External effects (the npm/pip registry, the toolchain processes, the clock and
the random generator) are passed in explicitly as oracle parameters, so every
definition is executable and every run is deterministic in its inputs.
-/

namespace ModuleVault

/-- JavaScript truthiness of an optional string request field:
`undefined` and the empty string are falsy (`if (!name)` in the handler). -/
def jsStrTruthy : Option String → Bool
  | some s => s != ""
  | none => false

/-- JavaScript `a || b` on strings: `a` when nonempty, else `b`. -/
def jsOr (a b : String) : String := if a != "" then a else b

/-- Package metadata as returned by `packageService.getPackageInfo`. -/
structure PackageInfo where
  name : String
  version : String
  description : String
  keywords : List String
  repositoryManager : String
deriving Repr, DecidableEq

/-- An `Executable` document of the Mongoose model (the fields the download
handler reads or writes; `id` stands for Mongo `_id`). -/
structure ExecutableRecord where
  id : Nat
  name : String
  description : String
  tags : List String
  downloads : Nat
  version : String
  repositoryManager : String
  fileName : String
  fileSize : Nat
deriving Repr, DecidableEq

/-- The `searchCriteria` match of the handler: `{ name, repositoryManager }`
plus `version` only when the request carried a truthy version.  Note that the
requested OS is *not* part of the criteria. -/
def matchesCriteria (name rm : String) (version : Option String)
    (r : ExecutableRecord) : Bool :=
  r.name == name && r.repositoryManager == rm &&
    (match version with
     | none => true
     | some v => r.version == v)

/-- Embeds `Executable.findOne(searchCriteria)`: first record in insertion order
matching the criteria. -/
def findOne (store : List ExecutableRecord) (name rm : String)
    (version : Option String) : Option ExecutableRecord :=
  store.find? (matchesCriteria name rm version)

/-- Embeds `executable.save()` after mutating a found document: replace the record
with the same id. -/
def saveRecord (store : List ExecutableRecord) (r : ExecutableRecord) :
    List ExecutableRecord :=
  store.map (fun x => if x.id == r.id then r else x)

/-- Result of `buildService.buildExecutable` as consumed by the handler:
`{success: true, fileName, fileSize}` or `{success: false, error}`. -/
inductive BuildResult where
  | ok (fileName : String) (fileSize : Nat)
  | fail (error : String)
deriving Repr, DecidableEq

/-- The handler's external collaborators: `packageService.getPackageInfo`
(returns `null` on any resolution failure) and
`buildService.buildExecutable`. -/
structure Env where
  getPackageInfo : String → String → String → Option PackageInfo
  buildExecutable : PackageInfo → String → BuildResult

/-- Server state visible to the download handler: the record store, the set of
file names present in the executables directory, and the id the next created
document receives. -/
structure HState where
  store : List ExecutableRecord
  disk : List String
  nextId : Nat
deriving Repr, DecidableEq

/-- HTTP responses the download handler can produce. -/
inductive Response where
  | badRequest (message : String)
  | notFound (message : String)
  | serverError (message : String)
  | okCached (downloadUrl : String) (record : ExecutableRecord)
  | created (downloadUrl : String) (record : ExecutableRecord)
deriving Repr, DecidableEq

/-- The HTTP status code of each response shape. -/
def statusOf : Response → Nat
  | .badRequest _ => 400
  | .notFound _ => 404
  | .serverError _ => 500
  | .okCached _ _ => 200
  | .created _ _ => 201

/-- One handler run: the response, the state after the run, and how many times
the resolver and the builder were invoked. -/
structure Outcome where
  response : Response
  state : HState
  resolverCalls : Nat
  builderCalls : Nat
deriving Repr

def msgMissingFields : String :=
  "Missing required fields: name, repositoryManager, and os are required"

def msgBadManager : String := "Invalid repositoryManager. Must be npm or pip"

def msgBadOs : String := "Invalid os. Must be windows, macos, or linux"

def msgPackageNotFound (name rm : String) : String :=
  "Package " ++ name ++ " not found in " ++ rm ++ " registry"

def msgBuildFallback : String := "Failed to build executable"

/-- The request body of `POST /api/executables/download`; absent fields are
`none`. -/
structure Request where
  name : Option String
  repositoryManager : Option String
  os : Option String
  version : Option String
deriving Repr, DecidableEq

/-- The `executableData` document of the handler when an existing (stale)
record is being rebuilt: same id, `downloads` preserved plus one. -/
def rebuiltRecord (stale : ExecutableRecord) (info : PackageInfo)
    (rm f : String) (sz : Nat) : ExecutableRecord :=
  { id := stale.id, name := info.name,
    description := jsOr info.description "No description available",
    tags := info.keywords, downloads := stale.downloads + 1,
    version := info.version, repositoryManager := rm,
    fileName := f, fileSize := sz }

/-- The `executableData` document of the handler on a first build:
fresh id, `downloads = 1`. -/
def createdRecord (nextId : Nat) (info : PackageInfo) (rm f : String)
    (sz : Nat) : ExecutableRecord :=
  { id := nextId, name := info.name,
    description := jsOr info.description "No description available",
    tags := info.keywords, downloads := 1,
    version := info.version, repositoryManager := rm,
    fileName := f, fileSize := sz }

/-- The miss / stale tail of the handler: resolve the package, build the
executable, then create a new record or update the stale one in place.  On a
build success the artifact file appears in the executables directory. -/
def missPath (env : Env) (name rm os : String) (ver : Option String)
    (st : HState) (stale : Option ExecutableRecord) : Outcome :=
  match env.getPackageInfo name rm (ver.getD "latest") with
  | none =>
    { response := .notFound (msgPackageNotFound name rm), state := st,
      resolverCalls := 1, builderCalls := 0 }
  | some info =>
    match env.buildExecutable info os with
    | .fail err =>
      { response := .serverError (jsOr err msgBuildFallback), state := st,
        resolverCalls := 1, builderCalls := 1 }
    | .ok f sz =>
      match stale with
      | some e =>
        let newRec := rebuiltRecord e info rm f sz
        { response := .created ("/download/" ++ f) newRec,
          state :=
            { store := st.store.map
                (fun r => if r.id == e.id then newRec else r),
              disk := f :: st.disk, nextId := st.nextId },
          resolverCalls := 1, builderCalls := 1 }
      | none =>
        let newRec := createdRecord st.nextId info rm f sz
        { response := .created ("/download/" ++ f) newRec,
          state := { store := st.store ++ [newRec], disk := f :: st.disk,
                     nextId := st.nextId + 1 },
          resolverCalls := 1, builderCalls := 1 }

/-- The handler after validation: cache lookup, hit / stale / absent split. -/
def core (env : Env) (name rm os : String) (ver : Option String)
    (st : HState) : Outcome :=
  let criteriaVersion := if jsStrTruthy ver then ver else none
  match findOne st.store name rm criteriaVersion with
  | some rec =>
    if st.disk.contains rec.fileName then
      let rec' := { rec with downloads := rec.downloads + 1 }
      { response := .okCached ("/download/" ++ rec.fileName) rec',
        state := { st with store := saveRecord st.store rec' },
        resolverCalls := 0, builderCalls := 0 }
    else
      missPath env name rm os ver st (some rec)
  | none => missPath env name rm os ver st none

/-- Embeds the download route handler: the three validation checks, then `core`. -/
def postDownload (env : Env) (req : Request) (st : HState) : Outcome :=
  if !(jsStrTruthy req.name) || !(jsStrTruthy req.repositoryManager)
      || !(jsStrTruthy req.os) then
    { response := .badRequest msgMissingFields, state := st,
      resolverCalls := 0, builderCalls := 0 }
  else if !((["npm", "pip"] : List String).contains
      (req.repositoryManager.getD "")) then
    { response := .badRequest msgBadManager, state := st,
      resolverCalls := 0, builderCalls := 0 }
  else if !((["windows", "macos", "linux"] : List String).contains
      (req.os.getD "")) then
    { response := .badRequest msgBadOs, state := st,
      resolverCalls := 0, builderCalls := 0 }
  else
    core env (req.name.getD "") (req.repositoryManager.getD "")
      (req.os.getD "") req.version st

/-! ### BuildService (`src/services/buildService.js`) -/

/-- Embeds `packageInfo.name.replace(/^@/, "").replace(/[\/]/g, "_")`: the safe name
used for the workspace directory (character-list form so that it evaluates
definitionally). -/
def safeWorkName (s : String) : String :=
  ⟨(match s.data with
     | '@' :: rest => rest
     | l => l).map (fun c => if c = '/' then '_' else c)⟩

/-- Embeds `packageInfo.name.replace(/[@\/]/g, "_")`: the safe name used for the
artifact file name. -/
def safeFileBase (s : String) : String :=
  ⟨s.data.map (fun c => if c = '@' || c = '/' then '_' else c)⟩

/-- JavaScript `os.toLowerCase()` (character-wise ASCII lowering). -/
def lowerAscii (s : String) : String := ⟨s.data.map Char.toLower⟩

/-- Embeds `BuildService.getExecutableExtension`. -/
def getExecutableExtension (os : String) : String :=
  if lowerAscii os = "windows" then ".exe"
  else if lowerAscii os = "macos" then ""
  else if lowerAscii os = "linux" then ""
  else ""

/-- Embeds `fileUtils.generateUniqueFileName(baseName, extension)` with the
`Date.now()` timestamp and the `Math.random()` suffix made explicit. -/
def generateUniqueFileName (baseName extension : String) (timestamp : Nat)
    (random : String) : String :=
  baseName ++ "_" ++ toString timestamp ++ "_" ++ random ++ extension

/-- The `buildId` of `buildExecutable`:
`` `${safeName}_${version}_${os}_${Date.now()}` ``.
The only varying suffix is the millisecond timestamp. -/
def buildIdOf (info : PackageInfo) (os : String) (now : Nat) : String :=
  safeWorkName info.name ++ "_" ++ info.version ++ "_" ++ os ++ "_"
    ++ toString now

/-- Embeds `path.join(this.tempDir, buildId)`: the workspace directory path. -/
def workDirOf (info : PackageInfo) (os : String) (now : Nat) : String :=
  "temp/" ++ buildIdOf info os now

/-- Embeds `fileUtils.getFileSize`: `statSync(p).size`, or `0` when `stat` throws
(file absent). -/
def getFileSize (artifacts : List (String × Nat)) (p : String) : Nat :=
  match artifacts.find? (fun a => a.1 == p) with
  | some a => a.2
  | none => 0

/-- The ambient effects of one `buildExecutable` invocation: the two clock
reads, the random suffix, the outcome of `downloadPackage`, the outcome of
`createExecutable` (an error or the byte size of the produced file), and
whether the `finally` cleanup of the workspace throws. -/
structure BuildEnv where
  now : Nat
  fileTimestamp : Nat
  random : String
  downloadOk : Bool
  createExecutableResult : Except String Nat
  cleanupFails : Bool

/-- Filesystem as `buildExecutable` sees it: temp directories, and artifact
files (file name, byte size) in the executables directory. -/
structure BuildFs where
  tempDirs : List String
  artifacts : List (String × Nat)
deriving Repr, DecidableEq

/-- The observable trace of one `buildExecutable` invocation. -/
structure BuildTrace where
  result : BuildResult
  fs : BuildFs
  workDirCreated : String
  cleanupCalledOn : List String
deriving Repr, DecidableEq

/-- Embeds `BuildService.buildExecutable(packageInfo, os)`: create the workspace,
download, build, copy the artifact under a generated unique file name, read
its size; on any step failure return `{success:false, error}`; in `finally`
call `cleanupDirectory(workDir)`, swallowing a cleanup failure. -/
def buildExecutableRun (info : PackageInfo) (os : String) (env : BuildEnv)
    (fs : BuildFs) : BuildTrace :=
  let workDir := workDirOf info os env.now
  let fs1 : BuildFs := { fs with tempDirs := workDir :: fs.tempDirs }
  let step : BuildResult × BuildFs :=
    if !env.downloadOk then
      (.fail "Failed to build executable: download failed", fs1)
    else
      match env.createExecutableResult with
      | .error msg => (.fail ("Failed to build executable: " ++ msg), fs1)
      | .ok size =>
        let fileName := generateUniqueFileName
          (safeFileBase info.name ++ "_" ++ info.version ++ "_" ++ os)
          (getExecutableExtension os) env.fileTimestamp env.random
        let fs2 : BuildFs :=
          { fs1 with artifacts := (fileName, size) :: fs1.artifacts }
        (.ok fileName (getFileSize fs2.artifacts fileName), fs2)
  let cleaned : BuildFs :=
    if env.cleanupFails then step.2
    else { step.2 with tempDirs := step.2.tempDirs.erase workDir }
  { result := step.1, fs := cleaned, workDirCreated := workDir,
    cleanupCalledOn := [workDir] }

/-! ### npm entry-point selection (`createNpmExecutable`) -/

/-- The `bin` field of the installed module's `package.json`: a string or a
map of named entries (in object insertion order). -/
inductive BinField where
  | str (s : String)
  | map (entries : List (String × String))
deriving Repr, DecidableEq

/-- JavaScript property lookup `bin[moduleName]` on the map form. -/
def lookupBin (entries : List (String × String)) (k : String) :
    Option String :=
  (entries.find? (fun e => e.1 == k)).map (fun e => e.2)

def msgNoValidBin : String :=
  "Module does not have a valid bin entry in package.json."

def msgNoEntryPoint : String :=
  "Could not determine the entry point for module. Neither bin nor main found in package.json."

/-- Embeds `path.join(buildDir, "node_modules", moduleName)`. -/
def modulePathOf (buildDir moduleName : String) : String :=
  buildDir ++ "/node_modules/" ++ moduleName

/-- The `else if (modulePackageJson.main)` fallback of
`createNpmExecutable`. -/
def mainFallback (modulePath : String) (main : Option String) :
    Except String String :=
  match main with
  | some m => if m != "" then .ok (modulePath ++ "/" ++ m)
              else .error msgNoEntryPoint
  | none => .error msgNoEntryPoint

/-- The entry-point selection of `createNpmExecutable`: use `bin` when truthy
(string form directly; map form prefers `bin[moduleName]`, then the first
value, else throws), otherwise fall back to `main`, otherwise throw. -/
def selectEntryPoint (moduleName buildDir : String) (bin : Option BinField)
    (main : Option String) : Except String String :=
  let modulePath := modulePathOf buildDir moduleName
  match bin with
  | some (.str s) =>
    if s != "" then .ok (modulePath ++ "/" ++ s)
    else mainFallback modulePath main
  | some (.map es) =>
    let b1 := lookupBin es moduleName
    let b2 := if jsStrTruthy b1 then b1 else (es.map (fun e => e.2)).head?
    match b2 with
    | some p =>
      if p != "" then .ok (modulePath ++ "/" ++ p) else .error msgNoValidBin
    | none => .error msgNoValidBin
  | none => mainFallback modulePath main

/-! ### Helper lemmas -/

theorem find?_append_of_none {α : Type} (p : α → Bool) (l1 l2 : List α)
    (h : l1.find? p = none) : (l1 ++ l2).find? p = l2.find? p := by
  induction l1 with
  | nil => simp
  | cons a l ih =>
    rw [List.find?_cons] at h
    cases hp : p a with
    | true => simp [hp] at h
    | false =>
      simp only [hp] at h
      simpa [List.find?_cons, hp] using ih h

/-- Numeric value of a decimal digit character. -/
def digitVal (c : Char) : Nat := c.toNat - 48

/-- Decimal value of a digit-character list. -/
def evalDigits (l : List Char) : Nat :=
  l.foldl (fun acc c => acc * 10 + digitVal c) 0

theorem evalDigits_shift (l : List Char) (a : Nat) :
    l.foldl (fun acc c => acc * 10 + digitVal c) a
      = a * 10 ^ l.length + evalDigits l := by
  induction l generalizing a with
  | nil => simp [evalDigits]
  | cons c l ih =>
    have hc : evalDigits (c :: l)
        = digitVal c * 10 ^ l.length + evalDigits l := by
      show List.foldl _ (0 * 10 + digitVal c) l = _
      rw [ih]
      ring_nf
    rw [List.foldl_cons, ih, hc, List.length_cons]
    ring

theorem digitVal_digitChar (m : Nat) (h : m < 10) :
    digitVal (Nat.digitChar m) = m := by
  interval_cases m <;> decide

theorem evalDigits_toDigitsCore (fuel : Nat) :
    ∀ (n : Nat) (ds : List Char), n < fuel →
      evalDigits (Nat.toDigitsCore 10 fuel n ds)
        = n * 10 ^ ds.length + evalDigits ds := by
  induction fuel with
  | zero => intro n ds h; omega
  | succ fuel ih =>
    intro n ds h
    unfold Nat.toDigitsCore
    by_cases h0 : n / 10 = 0
    · have hn : n < 10 := by omega
      have hmod : n % 10 = n := Nat.mod_eq_of_lt hn
      simp only [h0, if_true]
      have : evalDigits (Nat.digitChar (n % 10) :: ds)
          = digitVal (Nat.digitChar (n % 10)) * 10 ^ ds.length
            + evalDigits ds := by
        show List.foldl _ (0 * 10 + digitVal (Nat.digitChar (n % 10))) ds = _
        rw [evalDigits_shift]
        ring_nf
      rw [this, digitVal_digitChar _ (by omega), hmod]
    · simp only [h0, if_false]
      have hlt : n / 10 < fuel := by
        have h1 : n / 10 < n := Nat.div_lt_self (by omega) (by omega)
        omega
      rw [ih (n / 10) (Nat.digitChar (n % 10) :: ds) hlt]
      have hstep : evalDigits (Nat.digitChar (n % 10) :: ds)
          = (n % 10) * 10 ^ ds.length + evalDigits ds := by
        show List.foldl _ (0 * 10 + digitVal (Nat.digitChar (n % 10))) ds = _
        rw [evalDigits_shift, digitVal_digitChar _ (Nat.mod_lt n (by omega))]
        ring_nf
      rw [hstep, List.length_cons]
      have hdm : 10 * (n / 10) + n % 10 = n := Nat.div_add_mod n 10
      calc n / 10 * 10 ^ (ds.length + 1) + ((n % 10) * 10 ^ ds.length
              + evalDigits ds)
          = (10 * (n / 10) + n % 10) * 10 ^ ds.length + evalDigits ds := by
            ring
        _ = n * 10 ^ ds.length + evalDigits ds := by rw [hdm]

theorem evalDigits_toDigits (n : Nat) :
    evalDigits (Nat.toDigits 10 n) = n := by
  unfold Nat.toDigits
  rw [evalDigits_toDigitsCore (n + 1) n [] (Nat.lt_succ_self n)]
  simp [evalDigits]

theorem natToString_injective {m n : Nat}
    (h : toString m = toString n) : m = n := by
  have hrepr : Nat.repr m = Nat.repr n := h
  have hd : Nat.toDigits 10 m = Nat.toDigits 10 n := by
    have hdata := congrArg String.data hrepr
    simpa [Nat.repr, List.asString] using hdata
  have := congrArg evalDigits hd
  simpa [evalDigits_toDigits] using this

theorem string_data_append (a b : String) :
    (a ++ b).data = a.data ++ b.data := by
  cases a; cases b; rfl

theorem stringAppendCancelLeft {p s t : String}
    (h : p ++ s = p ++ t) : s = t := by
  have hd := congrArg String.data h
  rw [string_data_append, string_data_append] at hd
  have hc := List.append_cancel_left hd
  cases s; cases t
  exact congrArg String.mk hc

/-- The record the handler serves from cache, when there is one: a record
matching the criteria whose artifact file is present on disk. -/
def cacheHit (st : HState) (name rm : String) (cv : Option String) :
    Option ExecutableRecord :=
  match findOne st.store name rm cv with
  | some rec => if st.disk.contains rec.fileName then some rec else none
  | none => none

/-- On a request passing all three validation checks, the handler runs its
post-validation body. -/
theorem postDownload_valid (env : Env) (st : HState) (name rm os : String)
    (ver : Option String)
    (hn : (name != "") = true) (hr : (rm != "") = true)
    (ho : (os != "") = true)
    (hrv : ((["npm", "pip"] : List String).contains rm) = true)
    (hov : ((["windows", "macos", "linux"] : List String).contains os)
      = true) :
    postDownload env ⟨some name, some rm, some os, ver⟩ st
      = core env name rm os ver st := by
  have hrm : rm = "npm" ∨ rm = "pip" := by simpa using hrv
  have hosv : os = "windows" ∨ os = "macos" ∨ os = "linux" := by
    simpa using hov
  simp only [postDownload, jsStrTruthy, hn, hr, ho]
  rcases hrm with h | h <;> rcases hosv with h2 | h2 | h2 <;>
    subst h <;> subst h2 <;> simp

/-! ### Concrete fixtures -/

/-- Resolved metadata for `left-pad`. -/
def lpInfo : PackageInfo :=
  { name := "left-pad", version := "1.3.0",
    description := "String left pad", keywords := ["leftpad"],
    repositoryManager := "npm" }

/-- A cached record whose artifact was built for linux (the OS is visible in
the generated file-name pattern `name_version_os_timestamp_random`). -/
def lpLinuxRecord : ExecutableRecord :=
  { id := 1, name := "left-pad", description := "String left pad",
    tags := ["leftpad"], downloads := 5, version := "1.3.0",
    repositoryManager := "npm",
    fileName := "left-pad_1.3.0_linux_1000_abc123", fileSize := 777 }

/-- Server state holding the linux record, with its artifact on disk. -/
def lpState : HState :=
  { store := [lpLinuxRecord],
    disk := ["left-pad_1.3.0_linux_1000_abc123"], nextId := 2 }

/-- Server state with an empty cache. -/
def emptyState : HState := { store := [], disk := [], nextId := 1 }

/-- An environment whose registry knows only `left-pad` and whose builder
always succeeds deterministically. -/
def lpEnv : Env :=
  { getPackageInfo := fun n rm _ =>
      if n == "left-pad" && rm == "npm" then some lpInfo else none,
    buildExecutable := fun info os =>
      .ok (info.name ++ "_" ++ info.version ++ "_" ++ os ++ "_2000_xyz")
        888 }

/-- Build effects of a successful run at time 1000. -/
def buildEnvA : BuildEnv :=
  { now := 1000, fileTimestamp := 1000, random := "aaa111",
    downloadOk := true, createExecutableResult := .ok 5,
    cleanupFails := false }

/-- Same clock reading as `buildEnvA`, different random draw. -/
def buildEnvB : BuildEnv := { buildEnvA with random := "zzz999" }

/-- An empty build filesystem. -/
def emptyBuildFs : BuildFs := { tempDirs := [], artifacts := [] }

/-! ### Claim theorems -/

/-- C3. -- For every valid request whose package name is unresolvable (the
resolver returns `null`) and that is not served from cache, the handler
returns the not-found failure, invokes the builder zero times (hence creates
no workspace), and leaves the store and the artifact directory unchanged. -/
theorem c3_unresolvable_no_mutation (env : Env) (st : HState)
    (name rm os : String) (ver : Option String)
    (hn : (name != "") = true) (hr : (rm != "") = true)
    (ho : (os != "") = true)
    (hrv : ((["npm", "pip"] : List String).contains rm) = true)
    (hov : ((["windows", "macos", "linux"] : List String).contains os)
      = true)
    (hnohit : cacheHit st name rm
      (if jsStrTruthy ver then ver else none) = none)
    (hres : env.getPackageInfo name rm (ver.getD "latest") = none) :
    postDownload env ⟨some name, some rm, some os, ver⟩ st
      = { response := .notFound (msgPackageNotFound name rm), state := st,
          resolverCalls := 1, builderCalls := 0 } := by
  rw [postDownload_valid env st name rm os ver hn hr ho hrv hov]
  unfold core
  unfold cacheHit at hnohit
  cases hf : findOne st.store name rm
      (if jsStrTruthy ver then ver else none) with
  | none => simp [hf, missPath, hres]
  | some rec =>
    simp only [hf] at hnohit
    have hd : rec.fileName ∉ st.disk := by
      by_cases hc : st.disk.contains rec.fileName = true
      · rw [if_pos hc] at hnohit; cases hnohit
      · simpa using hc
    simp [hf, hd, missPath, hres]

/-- C3 witness. -- A concrete unresolvable request against the left-pad
environment. -/
theorem c3_witness :
    postDownload lpEnv
        ⟨some "no-such-pkg", some "npm", some "linux", none⟩ lpState
      = { response := .notFound (msgPackageNotFound "no-such-pkg" "npm"),
          state := lpState, resolverCalls := 1, builderCalls := 0 } :=
  c3_unresolvable_no_mutation lpEnv lpState "no-such-pkg" "npm" "linux" none
    rfl rfl rfl (by decide) (by decide) (by decide) rfl

/-- C7. -- For every valid request that reaches the builder and whose build
fails, the handler returns a failed outcome carrying the builder's
human-readable error message (or the fixed fallback when that message is
empty) and performs no cache mutation: the store, the artifact directory and
the id counter are unchanged. -/
theorem c7_build_failure_no_mutation (env : Env) (st : HState)
    (name rm os : String) (ver : Option String) (info : PackageInfo)
    (err : String)
    (hn : (name != "") = true) (hr : (rm != "") = true)
    (ho : (os != "") = true)
    (hrv : ((["npm", "pip"] : List String).contains rm) = true)
    (hov : ((["windows", "macos", "linux"] : List String).contains os)
      = true)
    (hnohit : cacheHit st name rm
      (if jsStrTruthy ver then ver else none) = none)
    (hres : env.getPackageInfo name rm (ver.getD "latest") = some info)
    (hbuild : env.buildExecutable info os = .fail err) :
    postDownload env ⟨some name, some rm, some os, ver⟩ st
      = { response := .serverError (jsOr err msgBuildFallback), state := st,
          resolverCalls := 1, builderCalls := 1 } := by
  rw [postDownload_valid env st name rm os ver hn hr ho hrv hov]
  unfold core
  unfold cacheHit at hnohit
  cases hf : findOne st.store name rm
      (if jsStrTruthy ver then ver else none) with
  | none => simp [hf, missPath, hres, hbuild]
  | some rec =>
    simp only [hf] at hnohit
    have hd : rec.fileName ∉ st.disk := by
      by_cases hc : st.disk.contains rec.fileName = true
      · rw [if_pos hc] at hnohit; cases hnohit
      · simpa using hc
    simp [hf, hd, missPath, hres, hbuild]

/-- An environment identical to `lpEnv` except that every build fails. -/
def lpFailEnv : Env :=
  { lpEnv with buildExecutable := fun _ _ => .fail "npm install exploded" }

/-- C7 witness. -- A concrete failing build leaves the state unchanged. -/
theorem c7_witness :
    postDownload lpFailEnv
        ⟨some "left-pad", some "npm", some "linux", none⟩ emptyState
      = { response := .serverError
            (jsOr "npm install exploded" msgBuildFallback),
          state := emptyState, resolverCalls := 1, builderCalls := 1 } :=
  c7_build_failure_no_mutation lpFailEnv emptyState "left-pad" "npm" "linux"
    none lpInfo "npm install exploded" rfl rfl rfl (by decide) (by decide)
    rfl (by decide) rfl

/-- C6. -- Stale rebuild: when a record matches the request but its artifact
file is missing from disk, and resolution and build succeed, the handler
rebuilds exactly once (one builder call) and persists, under the same record
id, a record with `downloads` equal to the old value plus one and the newly
generated file name. -/
theorem c6_stale_rebuild (env : Env) (st : HState) (name rm os : String)
    (ver : Option String) (rec : ExecutableRecord) (info : PackageInfo)
    (f : String) (sz : Nat)
    (hn : (name != "") = true) (hr : (rm != "") = true)
    (ho : (os != "") = true)
    (hrv : ((["npm", "pip"] : List String).contains rm) = true)
    (hov : ((["windows", "macos", "linux"] : List String).contains os)
      = true)
    (hfind : findOne st.store name rm
      (if jsStrTruthy ver then ver else none) = some rec)
    (hstale : st.disk.contains rec.fileName = false)
    (hres : env.getPackageInfo name rm (ver.getD "latest") = some info)
    (hbuild : env.buildExecutable info os = .ok f sz)
    (hnew : f ≠ rec.fileName) :
    postDownload env ⟨some name, some rm, some os, ver⟩ st
      = { response := .created ("/download/" ++ f)
            (rebuiltRecord rec info rm f sz),
          state :=
            { store := st.store.map (fun r =>
                if r.id == rec.id then rebuiltRecord rec info rm f sz else r),
              disk := f :: st.disk, nextId := st.nextId },
          resolverCalls := 1, builderCalls := 1 }
      ∧ (rebuiltRecord rec info rm f sz).id = rec.id
      ∧ (rebuiltRecord rec info rm f sz).downloads = rec.downloads + 1
      ∧ (rebuiltRecord rec info rm f sz).fileName = f
      ∧ f ≠ rec.fileName := by
  refine ⟨?_, rfl, rfl, rfl, hnew⟩
  rw [postDownload_valid env st name rm os ver hn hr ho hrv hov]
  unfold core
  have hd : rec.fileName ∉ st.disk := by simpa using hstale
  simp [hfind, hd, missPath, hres, hbuild]

/-- State whose only record references an artifact file that has been
deleted externally (the disk list is empty). -/
def lpStaleState : HState :=
  { store := [lpLinuxRecord], disk := [], nextId := 2 }

/-- C6 witness. -- A concrete stale rebuild of the left-pad record. -/
theorem c6_witness :
    postDownload lpEnv
        ⟨some "left-pad", some "npm", some "linux", none⟩ lpStaleState
      = { response := .created
            ("/download/" ++ "left-pad_1.3.0_linux_2000_xyz")
            (rebuiltRecord lpLinuxRecord lpInfo "npm"
              "left-pad_1.3.0_linux_2000_xyz" 888),
          state :=
            { store := lpStaleState.store.map (fun r =>
                if r.id == lpLinuxRecord.id then
                  rebuiltRecord lpLinuxRecord lpInfo "npm"
                    "left-pad_1.3.0_linux_2000_xyz" 888
                else r),
              disk := "left-pad_1.3.0_linux_2000_xyz"
                :: lpStaleState.disk,
              nextId := lpStaleState.nextId },
          resolverCalls := 1, builderCalls := 1 }
      ∧ (rebuiltRecord lpLinuxRecord lpInfo "npm"
          "left-pad_1.3.0_linux_2000_xyz" 888).id = lpLinuxRecord.id
      ∧ (rebuiltRecord lpLinuxRecord lpInfo "npm"
          "left-pad_1.3.0_linux_2000_xyz" 888).downloads
        = lpLinuxRecord.downloads + 1
      ∧ (rebuiltRecord lpLinuxRecord lpInfo "npm"
          "left-pad_1.3.0_linux_2000_xyz" 888).fileName
        = "left-pad_1.3.0_linux_2000_xyz"
      ∧ "left-pad_1.3.0_linux_2000_xyz" ≠ lpLinuxRecord.fileName :=
  c6_stale_rebuild lpEnv lpStaleState "left-pad" "npm" "linux" none
    lpLinuxRecord lpInfo "left-pad_1.3.0_linux_2000_xyz" 888
    rfl rfl rfl (by decide) (by decide) rfl rfl (by decide) rfl (by decide)

/-- C10. -- A download request with a missing `name`, `repositoryManager` or
`os`, or with a `repositoryManager` outside {npm, pip}, or an `os` outside
{windows, macos, linux}, is rejected with HTTP 400 before the cache lookup,
the resolver and the builder run: the state (store, artifact directory, id
counter) is unchanged and neither collaborator is invoked. -/
theorem c10_validation_rejects (env : Env) (st : HState) (req : Request)
    (hbad : req.name = none ∨ req.repositoryManager = none ∨ req.os = none
      ∨ (∀ s, req.repositoryManager = some s →
          ((["npm", "pip"] : List String).contains s) = false)
      ∨ (∀ s, req.os = some s →
          ((["windows", "macos", "linux"] : List String).contains s)
            = false)) :
    statusOf (postDownload env req st).response = 400
    ∧ (postDownload env req st).state = st
    ∧ (postDownload env req st).resolverCalls = 0
    ∧ (postDownload env req st).builderCalls = 0 := by
  unfold postDownload
  rcases hbad with h | h | h | h | h
  · simp [h, jsStrTruthy, statusOf]
  · simp [h, jsStrTruthy, statusOf]
  · simp [h, jsStrTruthy, statusOf]
  · by_cases h1 : (!(jsStrTruthy req.name)
        || !(jsStrTruthy req.repositoryManager)
        || !(jsStrTruthy req.os)) = true
    · rw [if_pos h1]; exact ⟨rfl, rfl, rfl, rfl⟩
    · rw [if_neg h1]
      cases hrm : req.repositoryManager with
      | none => exact absurd (by simp [hrm, jsStrTruthy]) h1
      | some r =>
        rw [if_pos]
        · exact ⟨rfl, rfl, rfl, rfl⟩
        · have hc := h r hrm
          simp only [hrm, Option.getD_some]
          rw [hc]
          rfl
  · by_cases h1 : (!(jsStrTruthy req.name)
        || !(jsStrTruthy req.repositoryManager)
        || !(jsStrTruthy req.os)) = true
    · rw [if_pos h1]; exact ⟨rfl, rfl, rfl, rfl⟩
    · rw [if_neg h1]
      by_cases h2 : (!((["npm", "pip"] : List String).contains
          (req.repositoryManager.getD ""))) = true
      · rw [if_pos h2]; exact ⟨rfl, rfl, rfl, rfl⟩
      · rw [if_neg h2]
        cases hos : req.os with
        | none => exact absurd (by simp [hos, jsStrTruthy]) h1
        | some s =>
          rw [if_pos]
          · exact ⟨rfl, rfl, rfl, rfl⟩
          · have hc := h s hos
            simp only [hos, Option.getD_some]
            rw [hc]
            rfl

/-- A request carrying an unsupported OS value. -/
def reqBadOs : Request :=
  ⟨some "left-pad", some "npm", some "beos", none⟩

/-- C10 witness. -- A request with a bad OS value is rejected with 400 and
no state change. -/
theorem c10_witness :
    statusOf (postDownload lpEnv reqBadOs lpState).response = 400
    ∧ (postDownload lpEnv reqBadOs lpState).state = lpState
    ∧ (postDownload lpEnv reqBadOs lpState).resolverCalls = 0
    ∧ (postDownload lpEnv reqBadOs lpState).builderCalls = 0 :=
  c10_validation_rejects lpEnv lpState reqBadOs
    (Or.inr (Or.inr (Or.inr (Or.inr (fun s hs => by
      cases hs; decide)))))

/-- Embeds `executable.downloads += 1` on a found document. -/
def incDownloads (r : ExecutableRecord) : ExecutableRecord :=
  { r with downloads := r.downloads + 1 }

/-- A windows request for the package cached as a linux artifact. -/
def reqWindows : Request :=
  ⟨some "left-pad", some "npm", some "windows", some "1.3.0"⟩

/-- C1, counterexample. -- The cache key does not include the OS: a request
for `windows` is served from cache (`builderCalls = 0`) with the record whose
artifact was built for `linux` (visible in its file name), `downloads`
incremented. -/
theorem c1_counterexample :
    (postDownload lpEnv reqWindows lpState).builderCalls = 0
    ∧ (postDownload lpEnv reqWindows lpState).response
      = .okCached "/download/left-pad_1.3.0_linux_1000_abc123"
          { lpLinuxRecord with downloads := 6 }
    ∧ reqWindows.os = some "windows"
    ∧ lpLinuxRecord.fileName = "left-pad_1.3.0_linux_1000_abc123" := by
  refine ⟨rfl, ?_, rfl, rfl⟩
  rfl

/-- C1, amended. -- The cache key is `(name, repositoryManager[, version])`
and excludes the OS: whenever a matching record's artifact file is on disk,
the handler serves it from cache with zero builder calls, and the whole
outcome is identical for any two (valid) requested OS values. -/
theorem c1_amended_key_ignores_os (env : Env) (st : HState)
    (name rm os1 os2 : String) (ver : Option String)
    (rec : ExecutableRecord)
    (hn : (name != "") = true) (hr : (rm != "") = true)
    (ho1 : (os1 != "") = true) (ho2 : (os2 != "") = true)
    (hrv : ((["npm", "pip"] : List String).contains rm) = true)
    (hov1 : ((["windows", "macos", "linux"] : List String).contains os1)
      = true)
    (hov2 : ((["windows", "macos", "linux"] : List String).contains os2)
      = true)
    (hfind : findOne st.store name rm
      (if jsStrTruthy ver then ver else none) = some rec)
    (hdisk : st.disk.contains rec.fileName = true) :
    postDownload env ⟨some name, some rm, some os1, ver⟩ st
      = postDownload env ⟨some name, some rm, some os2, ver⟩ st
    ∧ (postDownload env
        ⟨some name, some rm, some os1, ver⟩ st).builderCalls = 0
    ∧ (postDownload env
        ⟨some name, some rm, some os1, ver⟩ st).response
      = .okCached ("/download/" ++ rec.fileName) (incDownloads rec) := by
  have hd : rec.fileName ∈ st.disk := by simpa using hdisk
  rw [postDownload_valid env st name rm os1 ver hn hr ho1 hrv hov1,
    postDownload_valid env st name rm os2 ver hn hr ho2 hrv hov2]
  unfold core
  simp [hfind, hd, incDownloads]

/-- C1 witness. -- The concrete linux-cached record is served identically
for a windows and a macos request. -/
theorem c1_witness :
    postDownload lpEnv
        ⟨some "left-pad", some "npm", some "windows", some "1.3.0"⟩ lpState
      = postDownload lpEnv
        ⟨some "left-pad", some "npm", some "macos", some "1.3.0"⟩ lpState
    ∧ (postDownload lpEnv
        ⟨some "left-pad", some "npm", some "windows", some "1.3.0"⟩
        lpState).builderCalls = 0
    ∧ (postDownload lpEnv
        ⟨some "left-pad", some "npm", some "windows", some "1.3.0"⟩
        lpState).response
      = .okCached ("/download/" ++ lpLinuxRecord.fileName)
          (incDownloads lpLinuxRecord) :=
  c1_amended_key_ignores_os lpEnv lpState "left-pad" "npm" "windows" "macos"
    (some "1.3.0") lpLinuxRecord rfl rfl rfl rfl (by decide) (by decide)
    (by decide) rfl rfl

/-- A request that spells the version as the literal string `latest`. -/
def reqLatest : Request :=
  ⟨some "left-pad", some "npm", some "linux", some "latest"⟩

/-- C2, counterexample. -- With `version: "latest"` in the body, the stored
record carries the resolved concrete version `1.3.0`, so the immediately
repeated identical request misses the cache: the builder runs in both
requests (twice total, not once) and the second response carries a second
record with `downloads = 1` (not `downloads = 2`). -/
theorem c2_counterexample :
    (postDownload lpEnv reqLatest emptyState).builderCalls = 1
    ∧ (postDownload lpEnv reqLatest
        (postDownload lpEnv reqLatest emptyState).state).builderCalls = 1
    ∧ (postDownload lpEnv reqLatest
        (postDownload lpEnv reqLatest emptyState).state).response
      = .created "/download/left-pad_1.3.0_linux_2000_xyz"
          { id := 2, name := "left-pad", description := "String left pad",
            tags := ["leftpad"], downloads := 1, version := "1.3.0",
            repositoryManager := "npm",
            fileName := "left-pad_1.3.0_linux_2000_xyz", fileSize := 888 } := by
  refine ⟨rfl, rfl, ?_⟩
  rfl

/-- C2, amended. -- The idempotent-cache property holds for keys whose
version criterion is absent or matches the resolver's reported version: the
first request builds once and persists record R; the immediately repeated
identical request is served from cache with R except
`downloads = R.downloads + 1`, with no resolver and no builder call (one
builder call total).  (When the request's version is the literal string
`latest`, the criterion does not match the stored concrete version and the
second request rebuilds, as the counterexample shows.) -/
theorem c2_amended_idempotent (env : Env) (st : HState)
    (name rm os : String) (ver : Option String) (info : PackageInfo)
    (f : String) (sz : Nat)
    (hn : (name != "") = true) (hr : (rm != "") = true)
    (ho : (os != "") = true)
    (hrv : ((["npm", "pip"] : List String).contains rm) = true)
    (hov : ((["windows", "macos", "linux"] : List String).contains os)
      = true)
    (habsent : findOne st.store name rm
      (if jsStrTruthy ver then ver else none) = none)
    (hres : env.getPackageInfo name rm (ver.getD "latest") = some info)
    (hbuild : env.buildExecutable info os = .ok f sz)
    (hnm : info.name = name)
    (hvm : (if jsStrTruthy ver then ver else none) = none
      ∨ (if jsStrTruthy ver then ver else none) = some info.version) :
    postDownload env ⟨some name, some rm, some os, ver⟩ st
      = ⟨.created ("/download/" ++ f) (createdRecord st.nextId info rm f sz),
         ⟨st.store ++ [createdRecord st.nextId info rm f sz], f :: st.disk,
          st.nextId + 1⟩, 1, 1⟩
    ∧ postDownload env ⟨some name, some rm, some os, ver⟩
        (postDownload env ⟨some name, some rm, some os, ver⟩ st).state
      = ⟨.okCached ("/download/" ++ f)
           (incDownloads (createdRecord st.nextId info rm f sz)),
         ⟨saveRecord (st.store ++ [createdRecord st.nextId info rm f sz])
            (incDownloads (createdRecord st.nextId info rm f sz)),
          f :: st.disk, st.nextId + 1⟩, 0, 0⟩ := by
  have h1 : postDownload env ⟨some name, some rm, some os, ver⟩ st
      = ⟨.created ("/download/" ++ f) (createdRecord st.nextId info rm f sz),
         ⟨st.store ++ [createdRecord st.nextId info rm f sz], f :: st.disk,
          st.nextId + 1⟩, 1, 1⟩ := by
    rw [postDownload_valid env st name rm os ver hn hr ho hrv hov]
    unfold core
    simp [habsent, missPath, hres, hbuild]
  refine ⟨h1, ?_⟩
  rw [h1]
  rw [postDownload_valid env _ name rm os ver hn hr ho hrv hov]
  unfold core
  have hmatch : matchesCriteria name rm
      (if jsStrTruthy ver then ver else none)
      (createdRecord st.nextId info rm f sz) = true := by
    unfold matchesCriteria createdRecord
    rcases hvm with hv | hv <;> rw [hv] <;> simp [hnm]
  have hfind2 : findOne (st.store ++ [createdRecord st.nextId info rm f sz])
      name rm (if jsStrTruthy ver then ver else none)
      = some (createdRecord st.nextId info rm f sz) := by
    unfold findOne
    rw [find?_append_of_none _ _ _ habsent]
    simp [List.find?_cons, hmatch]
  have hdisk2 : (createdRecord st.nextId info rm f sz).fileName
      ∈ f :: st.disk := by
    unfold createdRecord
    exact List.mem_cons_self _ _
  simp [hfind2, hdisk2, incDownloads, saveRecord]
  rfl

/-- C2 witness. -- Concrete run: absent key, request without a version
field; the second request is a pure cache hit. -/
theorem c2_witness :
    postDownload lpEnv ⟨some "left-pad", some "npm", some "linux", none⟩
        emptyState
      = ⟨.created ("/download/" ++ "left-pad_1.3.0_linux_2000_xyz")
           (createdRecord 1 lpInfo "npm" "left-pad_1.3.0_linux_2000_xyz" 888),
         ⟨[] ++ [createdRecord 1 lpInfo "npm"
            "left-pad_1.3.0_linux_2000_xyz" 888],
          "left-pad_1.3.0_linux_2000_xyz" :: [], 2⟩, 1, 1⟩
    ∧ postDownload lpEnv ⟨some "left-pad", some "npm", some "linux", none⟩
        (postDownload lpEnv ⟨some "left-pad", some "npm", some "linux", none⟩
          emptyState).state
      = ⟨.okCached ("/download/" ++ "left-pad_1.3.0_linux_2000_xyz")
           (incDownloads (createdRecord 1 lpInfo "npm"
             "left-pad_1.3.0_linux_2000_xyz" 888)),
         ⟨saveRecord ([] ++ [createdRecord 1 lpInfo "npm"
              "left-pad_1.3.0_linux_2000_xyz" 888])
            (incDownloads (createdRecord 1 lpInfo "npm"
              "left-pad_1.3.0_linux_2000_xyz" 888)),
          "left-pad_1.3.0_linux_2000_xyz" :: [], 2⟩, 0, 0⟩ :=
  c2_amended_idempotent lpEnv emptyState "left-pad" "npm" "linux" none lpInfo
    "left-pad_1.3.0_linux_2000_xyz" 888 rfl rfl rfl (by decide) (by decide)
    rfl (by decide) rfl rfl (Or.inl rfl)

/-- C4, counterexample. -- With no `bin` field but a `main` field the build
does not fail: it uses `main` as the entry point.  And for a map `bin`, the
entry named after the module is preferred over the first entry. -/
theorem c4_counterexample :
    selectEntryPoint "mypkg" "build" none (some "index.js")
      = .ok "build/node_modules/mypkg/index.js"
    ∧ selectEntryPoint "mypkg" "build"
        (some (.map [("other", "a.js"), ("mypkg", "b.js")])) none
      = .ok "build/node_modules/mypkg/b.js" :=
  ⟨rfl, rfl⟩

/-- C4, amended. -- Entry-point selection of `createNpmExecutable`: a
nonempty string `bin` is used directly; a map `bin` uses the entry named
after the module when present and nonempty, otherwise its first value; with
no `bin`, the `main` field is the fallback; only when neither `bin` nor
`main` is declared does the selection fail with the entry-point error. -/
theorem c4_amended_entry_selection (m d : String) (main : Option String) :
    (∀ s, s ≠ "" → selectEntryPoint m d (some (.str s)) main
        = .ok (modulePathOf d m ++ "/" ++ s))
    ∧ (∀ es v, lookupBin es m = some v → v ≠ "" →
        selectEntryPoint m d (some (.map es)) main
          = .ok (modulePathOf d m ++ "/" ++ v))
    ∧ (∀ es v, lookupBin es m = none →
        (es.map (fun e => e.2)).head? = some v → v ≠ "" →
        selectEntryPoint m d (some (.map es)) main
          = .ok (modulePathOf d m ++ "/" ++ v))
    ∧ (∀ mv, main = some mv → mv ≠ "" →
        selectEntryPoint m d none main = .ok (modulePathOf d m ++ "/" ++ mv))
    ∧ (main = none →
        selectEntryPoint m d none main = .error msgNoEntryPoint) := by
  refine ⟨?_, ?_, ?_, ?_, ?_⟩
  · intro s hs
    simp [selectEntryPoint, hs]
  · intro es v hv hne
    simp [selectEntryPoint, hv, jsStrTruthy, hne]
  · intro es v hv hhd hne
    simp [selectEntryPoint, hv, jsStrTruthy, hhd, hne]
  · intro mv hm hne
    simp [selectEntryPoint, mainFallback, hm, hne]
  · intro hm
    simp [selectEntryPoint, mainFallback, hm]

/-- C4 witness. -- Concrete selections through the amended theorem. -/
theorem c4_witness :
    selectEntryPoint "p" "b" (some (.str "cli.js")) none
      = .ok (modulePathOf "b" "p" ++ "/" ++ "cli.js")
    ∧ selectEntryPoint "p" "b" none (some "main.js")
      = .ok (modulePathOf "b" "p" ++ "/" ++ "main.js")
    ∧ selectEntryPoint "p" "b" none none = .error msgNoEntryPoint :=
  ⟨(c4_amended_entry_selection "p" "b" none).1 "cli.js" (by decide),
   (c4_amended_entry_selection "p" "b" (some "main.js")).2.2.2.1 "main.js"
     rfl (by decide),
   (c4_amended_entry_selection "p" "b" none).2.2.2.2 rfl⟩

/-- C5, counterexample. -- Two invocations with the identical buildKey in
the same millisecond receive the *same* workspace path even though their
random draws differ: the workspace path contains no randomness, only the
timestamp. -/
theorem c5_counterexample :
    (buildExecutableRun lpInfo "linux" buildEnvA emptyBuildFs).workDirCreated
      = (buildExecutableRun lpInfo "linux" buildEnvB
          emptyBuildFs).workDirCreated
    ∧ buildEnvA.random ≠ buildEnvB.random :=
  ⟨rfl, by decide⟩

/-- C5, amended. -- Workspace paths of two invocations with the same
buildKey are distinct exactly as far as the millisecond timestamps differ:
whenever the two `Date.now()` readings differ, the paths differ (the path is
`tempDir/safeName_version_os_timestamp` with no random component). -/
theorem c5_amended_distinct_iff_time (info : PackageInfo) (os : String)
    (e1 e2 : BuildEnv) (fs1 fs2 : BuildFs) (h : e1.now ≠ e2.now) :
    (buildExecutableRun info os e1 fs1).workDirCreated
      ≠ (buildExecutableRun info os e2 fs2).workDirCreated := by
  intro heq
  apply h
  have h1 : workDirOf info os e1.now = workDirOf info os e2.now := heq
  unfold workDirOf at h1
  have h2 := stringAppendCancelLeft h1
  unfold buildIdOf at h2
  exact natToString_injective (stringAppendCancelLeft h2)

/-- Build effects identical to `buildEnvA` but one second later. -/
def buildEnvC : BuildEnv := { buildEnvA with now := 2000 }

/-- C5 witness. -- Distinct timestamps give distinct workspace paths. -/
theorem c5_witness :
    (buildExecutableRun lpInfo "linux" buildEnvA emptyBuildFs).workDirCreated
      ≠ (buildExecutableRun lpInfo "linux" buildEnvC
          emptyBuildFs).workDirCreated :=
  c5_amended_distinct_iff_time lpInfo "linux" buildEnvA buildEnvC
    emptyBuildFs emptyBuildFs (by decide)

/-- C8. -- No orphan workspace: every `buildExecutable` invocation calls
cleanup on exactly the workspace directory it created, on every exit path
(success and failure); when the cleanup does not itself fail, the directory
is gone afterwards; and a cleanup failure never changes the build result. -/
theorem c8_no_orphan (info : PackageInfo) (os : String) (env : BuildEnv)
    (fs : BuildFs) (hfresh : workDirOf info os env.now ∉ fs.tempDirs) :
    (buildExecutableRun info os env fs).cleanupCalledOn
      = [(buildExecutableRun info os env fs).workDirCreated]
    ∧ (env.cleanupFails = false →
        (buildExecutableRun info os env fs).workDirCreated
          ∉ (buildExecutableRun info os env fs).fs.tempDirs)
    ∧ (∀ b : Bool,
        (buildExecutableRun info os { env with cleanupFails := b } fs).result
          = (buildExecutableRun info os env fs).result) := by
  refine ⟨rfl, ?_, fun b => rfl⟩
  intro hc
  unfold buildExecutableRun
  cases hd : env.downloadOk with
  | false => simp [hd, hc, List.erase_cons_head, hfresh]
  | true =>
    cases hcr : env.createExecutableResult with
    | error msg => simp [hd, hcr, hc, List.erase_cons_head, hfresh]
    | ok size => simp [hd, hcr, hc, List.erase_cons_head, hfresh]

/-- C8 witness. -- Concrete successful build: the workspace is created,
cleaned exactly once, and absent from the final filesystem. -/
theorem c8_witness :
    (buildExecutableRun lpInfo "linux" buildEnvA emptyBuildFs).cleanupCalledOn
      = [(buildExecutableRun lpInfo "linux" buildEnvA
          emptyBuildFs).workDirCreated]
    ∧ (buildEnvA.cleanupFails = false →
        (buildExecutableRun lpInfo "linux" buildEnvA
            emptyBuildFs).workDirCreated
          ∉ (buildExecutableRun lpInfo "linux" buildEnvA
              emptyBuildFs).fs.tempDirs)
    ∧ (∀ b : Bool,
        (buildExecutableRun lpInfo "linux" { buildEnvA with cleanupFails := b }
            emptyBuildFs).result
          = (buildExecutableRun lpInfo "linux" buildEnvA
              emptyBuildFs).result) :=
  c8_no_orphan lpInfo "linux" buildEnvA emptyBuildFs (by decide)

/-- C9. -- For every successful build, the returned `fileSize` is the exact
byte size of the artifact file at its final path: in the filesystem after the
run, the artifact directory holds the returned file name with exactly that
size. -/
theorem c9_fileSize_exact (info : PackageInfo) (os : String) (env : BuildEnv)
    (fs : BuildFs) (f : String) (sz : Nat)
    (h : (buildExecutableRun info os env fs).result = .ok f sz) :
    (buildExecutableRun info os env fs).fs.artifacts.find?
        (fun a => a.1 == f)
      = some (f, sz) := by
  unfold buildExecutableRun at h ⊢
  cases hd : env.downloadOk with
  | false => simp [hd] at h
  | true =>
    cases hcr : env.createExecutableResult with
    | error msg => simp [hd, hcr] at h
    | ok size =>
      simp only [hd, hcr] at h ⊢
      simp [getFileSize] at h
      obtain ⟨hf, hsz⟩ := h
      subst hf
      subst hsz
      cases hcf : env.cleanupFails with
      | true => simp [hcf, getFileSize]
      | false => simp [hcf, getFileSize]

/-- C9 witness. -- Concrete successful build: the final filesystem holds the
returned file with the returned size. -/
theorem c9_witness :
    List.find? (fun a => a.1 == "left-pad_1.3.0_linux_1000_aaa111")
        (buildExecutableRun lpInfo "linux" buildEnvA emptyBuildFs).fs.artifacts
      = some ("left-pad_1.3.0_linux_1000_aaa111", 5) :=
  c9_fileSize_exact lpInfo "linux" buildEnvA emptyBuildFs
    "left-pad_1.3.0_linux_1000_aaa111" 5 (by decide)

end ModuleVault
